import Mathlib

/-!
Shallow embedding of the neo-go interop service core
(pkg/core/interop_system.go and the companion interop handler file)
together with theorems about its storage, contract-lifecycle, asset-lifecycle
and ledger-query handlers.

Byte strings are modelled as lists of naturals, machine integers as Nat/Int
with explicit narrowing where the Go code narrows, fallible handlers as
Except-valued functions, and the staged/committed stores as explicit maps
passed through each operation.
-/

namespace NeoInterop

/-- Concrete byte strings (each entry conceptually a byte value). -/
abbrev Bytes := List Nat

/-- 160-bit script hashes (util.Uint160), kept as byte lists. -/
abbrev Uint160 := List Nat

/-- 256-bit hashes (util.Uint256), kept as byte lists. -/
abbrev Uint256 := List Nat

/-- MaxStorageKeyLen is the maximum length of a key for storage items. -/
def MaxStorageKeyLen : Nat := 1024

/-- Trigger byte for Application executions (0x10 in the Go code). -/
def TriggerApplication : Nat := 0x10

/-- Second write-eligible trigger byte accepted by the storage handlers (0x11). -/
def TriggerApplicationR : Nat := 0x11

/-- Error kinds surfaced by the interop handlers, mirroring the error
taxonomy of the Go code (each constructor corresponds to one errors.New /
fmt.Errorf site or one error returned from a collaborator). -/
inductive InteropErr where
  | badBlockIndex
  | decodeError
  | txNotFound
  | noContractFound
  | noStorageCapability
  | triggerNotApplication
  | readOnlyContext
  | keyTooLarge
  | constViolation
  | wrongAssetType
  | assetNameTooBig
  | amountZero
  | amountNegative
  | invoiceAmount
  | precisionTooBig
  | sharePrecision
  | fractionalAmount
  | assetNotFound
  | scriptTooBig
  | tooManyParameters
  | nameTooBig
  | versionTooBig
  | authorTooBig
  | emailTooBig
  | descriptionTooBig
  deriving DecidableEq, Repr

/-- StorageItem is the value-plus-constness record stored under a
(contract hash, key) pair. -/
structure StorageItem where
  value : Bytes
  isConst : Bool
  deriving DecidableEq, Repr

/-- StorageContext contains the storing script hash and a read/write flag. -/
structure StorageContext where
  scriptHash : Uint160
  readOnly : Bool
  deriving DecidableEq, Repr

/-- Contract state as built by createContractStateFromVM: script plus
metadata; properties is the narrowed PropertyState byte. -/
structure ContractState where
  script : Bytes
  paramList : Bytes
  returnType : Nat
  properties : Nat
  name : Bytes
  codeVersion : Bytes
  author : Bytes
  email : Bytes
  description : Bytes
  deriving DecidableEq, Repr

/-- HasStorage checks bit 0 of the contract property flags. -/
def ContractState.hasStorage (c : ContractState) : Bool := c.properties % 2 == 1

/-- The staged overlay (ic.mem): for a (contract hash, key) pair it holds
nothing, a tombstone (some none), or a staged item (some (some si)). -/
abbrev MemStore := Uint160 × Bytes → Option (Option StorageItem)

/-- Committed ledger storage (ic.bc.GetStorageItem). -/
abbrev CommittedStore := Uint160 × Bytes → Option StorageItem

/-- Committed contract states (ic.bc.GetContractState). -/
abbrev ContractStore := Uint160 → Option ContractState

/-- The parts of the interopContext the storage handlers consult: the
trigger byte, committed contract states, committed storage and the staged
overlay. -/
structure InteropContext where
  trigger : Nat
  contracts : ContractStore
  committed : CommittedStore
  mem : MemStore

/-- Modelled from the spec: getStorageItemFromStore (defined outside the
given sources) reads the staged overlay; both a tombstone and a plain miss
yield no item, so callers fall back to committed storage ("staged overlay
first; on tombstone or miss, falls to committed storage"). -/
def getStorageItemFromStore (mem : MemStore) (h : Uint160) (key : Bytes) :
    Option StorageItem :=
  match mem (h, key) with
  | some (some si) => some si
  | _ => none

/-- Modelled from the spec: putStorageItemIntoStore (defined outside the
given sources) stages the new item, overwriting any previous stage entry. -/
def putStorageItemIntoStore (mem : MemStore) (h : Uint160) (key : Bytes)
    (si : StorageItem) : MemStore :=
  fun p => if p = (h, key) then some (some si) else mem p

/-- Modelled from the spec: deleteStorageItemInStore (defined outside the
given sources) stages a tombstone for the given key. -/
def deleteStorageItemInStore (mem : MemStore) (h : Uint160) (key : Bytes) :
    MemStore :=
  fun p => if p = (h, key) then some none else mem p

/-- checkStorageContext requires the owning contract to exist and to
declare storage support. -/
def checkStorageContext (ic : InteropContext) (stc : StorageContext) :
    Except InteropErr Unit :=
  match ic.contracts stc.scriptHash with
  | none => .error .noContractFound
  | some contract =>
    if contract.hasStorage then .ok () else .error .noStorageCapability

/-- The two-tier lookup used by storageGet, storageDelete and
putWithContextAndFlags: staged overlay first, then committed storage. -/
def storageLookup (ic : InteropContext) (h : Uint160) (key : Bytes) :
    Option StorageItem :=
  match getStorageItemFromStore ic.mem h key with
  | some si => some si
  | none => ic.committed (h, key)

/-- storageGet returns the stored value for a key, an empty byte string on
a miss in both tiers. -/
def storageGet (ic : InteropContext) (stc : StorageContext) (key : Bytes) :
    Except InteropErr Bytes :=
  match checkStorageContext ic stc with
  | .error e => .error e
  | .ok _ =>
    match storageLookup ic stc.scriptHash key with
    | some si => .ok si.value
    | none => .ok []

/-- storageDelete stages a tombstone for the key after the trigger,
read-only, context-validity and constness checks; it returns the updated
overlay. -/
def storageDelete (ic : InteropContext) (stc : StorageContext) (key : Bytes) :
    Except InteropErr MemStore :=
  if ic.trigger ≠ TriggerApplication ∧ ic.trigger ≠ TriggerApplicationR then
    .error .triggerNotApplication
  else if stc.readOnly then .error .readOnlyContext
  else
    match checkStorageContext ic stc with
    | .error e => .error e
    | .ok _ =>
      match storageLookup ic stc.scriptHash key with
      | some si =>
        if si.isConst then .error .constViolation
        else .ok (deleteStorageItemInStore ic.mem stc.scriptHash key)
      | none => .ok (deleteStorageItemInStore ic.mem stc.scriptHash key)

/-- putWithContextAndFlags stages a new item for the key after the trigger,
key-length, read-only, context-validity and constness checks; it returns
the updated overlay. -/
def putWithContextAndFlags (ic : InteropContext) (stc : StorageContext)
    (key value : Bytes) (isConst : Bool) : Except InteropErr MemStore :=
  if ic.trigger ≠ TriggerApplication ∧ ic.trigger ≠ TriggerApplicationR then
    .error .triggerNotApplication
  else if key.length > MaxStorageKeyLen then .error .keyTooLarge
  else if stc.readOnly then .error .readOnlyContext
  else
    match checkStorageContext ic stc with
    | .error e => .error e
    | .ok _ =>
      if ((storageLookup ic stc.scriptHash key).getD
            { value := [], isConst := false }).isConst then
        .error .constViolation
      else .ok (putStorageItemIntoStore ic.mem stc.scriptHash key
                  { value := value, isConst := isConst })

/-- storagePut is putWithContextAndFlags with the constant flag cleared. -/
def storagePut (ic : InteropContext) (stc : StorageContext) (key value : Bytes) :
    Except InteropErr MemStore :=
  putWithContextAndFlags ic stc key value false

/-- storageContextAsReadOnly returns the context unchanged when it is
already read-only and otherwise a fresh context with the same owner and the
read-only flag set. -/
def storageContextAsReadOnly (stc : StorageContext) : StorageContext :=
  if stc.readOnly then stc
  else { scriptHash := stc.scriptHash, readOnly := true }

/-! ## Ledger query handlers (block / header / transaction / contract lookups) -/

/-- Minimal header record with the fields the handlers project. -/
structure HeaderM where
  index : Nat
  timestamp : Nat
  deriving DecidableEq, Repr

/-- Minimal block record: a header wrapper. -/
structure BlockM where
  header : HeaderM
  deriving DecidableEq, Repr

/-- Minimal transaction record. -/
structure TxM where
  hash : Uint256
  deriving DecidableEq, Repr

/-- The ledger query interface (Blockchainer) as consumed by the handlers:
header-hash by index, block/header/transaction/contract lookups. A miss is
an empty Option (the Go interface reports a miss through its error value
for GetBlock/GetHeader/GetTransaction and through nil for
GetContractState). -/
structure Blockchainer where
  headerHash : Nat → Uint256
  blocks : Uint256 → Option BlockM
  headers : Uint256 → Option HeaderM
  transactions : Uint256 → Option (TxM × Nat)
  contractStates : Uint160 → Option ContractState

/-- Stack items pushed by the lookup handlers: plain byte strings or
interop handles wrapping domain objects. -/
inductive StackItem where
  | bytes (bs : Bytes)
  | interopBlock (b : BlockM)
  | interopHeader (h : HeaderM)
  | interopTx (t : TxM)
  | interopContract (c : ContractState)
  deriving DecidableEq, Repr

/-- Unsigned little-endian value of a byte string. -/
def bytesToNatLE : Bytes → Nat
  | [] => 0
  | b :: rest => b + 256 * bytesToNatLE rest

/-- Most significant (last) byte of a byte string, zero when empty. -/
def bytesLastByte : Bytes → Nat
  | [] => 0
  | [b] => b
  | _ :: rest => bytesLastByte rest

/-- Signed little-endian two's-complement value of a byte string, the
integer the VM element's BigInt view yields for its byte representation. -/
def bytesToInt (bs : Bytes) : Int :=
  if bs = [] then 0
  else if bytesLastByte bs ≥ 128 then
    (bytesToNatLE bs : Int) - (256 : Int) ^ bs.length
  else (bytesToNatLE bs : Int)

/-- util.Uint256DecodeReverseBytes: a 32-byte string read in reverse. -/
def uint256DecodeReverseBytes (bs : Bytes) : Except InteropErr Uint256 :=
  if bs.length = 32 then .ok bs.reverse else .error .decodeError

/-- util.Uint160DecodeBytes: a 20-byte string. -/
def uint160DecodeBytes (bs : Bytes) : Except InteropErr Uint160 :=
  if bs.length = 20 then .ok bs else .error .decodeError

/-- getBlockHashFromElement converts a popped element to a block hash:
short encodings (at most 5 bytes) are block indexes resolved through
GetHeaderHash, longer ones are reversed 32-byte hashes. -/
def getBlockHashFromElement (bc : Blockchainer) (element : Bytes) :
    Except InteropErr Uint256 :=
  if element.length ≤ 5 then
    let hashint := bytesToInt element
    if hashint < 0 ∨ hashint > 4294967295 then .error .badBlockIndex
    else .ok (bc.headerHash hashint.toNat)
  else uint256DecodeReverseBytes element

/-- bcGetBlock pushes the block wrapped as an interop item, or an empty
byte string when the ledger reports a miss. -/
def bcGetBlock (bc : Blockchainer) (element : Bytes) :
    Except InteropErr StackItem :=
  match getBlockHashFromElement bc element with
  | .error e => .error e
  | .ok h =>
    match bc.blocks h with
    | none => .ok (.bytes [])
    | some b => .ok (.interopBlock b)

/-- bcGetHeader pushes the header wrapped as an interop item, or an empty
byte string when the ledger reports a miss. -/
def bcGetHeader (bc : Blockchainer) (element : Bytes) :
    Except InteropErr StackItem :=
  match getBlockHashFromElement bc element with
  | .error e => .error e
  | .ok h =>
    match bc.headers h with
    | none => .ok (.bytes [])
    | some hd => .ok (.interopHeader hd)

/-- bcGetContract pushes the contract state wrapped as an interop item, or
an empty byte string when the state is nil. -/
def bcGetContract (bc : Blockchainer) (element : Bytes) :
    Except InteropErr StackItem :=
  match uint160DecodeBytes element with
  | .error e => .error e
  | .ok h =>
    match bc.contractStates h with
    | none => .ok (.bytes [])
    | some cs => .ok (.interopContract cs)

/-- getTransactionAndHeight decodes the popped hash and asks the ledger for
the transaction; the ledger's miss is propagated as an error. -/
def getTransactionAndHeight (bc : Blockchainer) (element : Bytes) :
    Except InteropErr (TxM × Nat) :=
  match uint256DecodeReverseBytes element with
  | .error e => .error e
  | .ok h =>
    match bc.transactions h with
    | none => .error .txNotFound
    | some th => .ok th

/-- bcGetTransaction pushes the transaction wrapped as an interop item;
any error from getTransactionAndHeight (including a ledger miss) is
returned as a fault. -/
def bcGetTransaction (bc : Blockchainer) (element : Bytes) :
    Except InteropErr StackItem :=
  match getTransactionAndHeight bc element with
  | .error e => .error e
  | .ok th => .ok (.interopTx th.1)

/-! ## Contract lifecycle handlers -/

/-- MaxContractDescriptionLen is the maximum length for contract description. -/
def MaxContractDescriptionLen : Nat := 65536

/-- MaxContractScriptSize is the maximum script size for a contract. -/
def MaxContractScriptSize : Nat := 1024 * 1024

/-- MaxContractParametersNum is the maximum number of parameters for a contract. -/
def MaxContractParametersNum : Nat := 252

/-- MaxContractStringLen is the maximum length for contract metadata strings. -/
def MaxContractStringLen : Nat := 252

/-- The raw arguments popped by createContractStateFromVM, before
validation; returnType and properties are still the full popped integers. -/
structure ContractSpec where
  script : Bytes
  paramList : Bytes
  returnType : Int
  properties : Int
  name : Bytes
  codeVersion : Bytes
  author : Bytes
  email : Bytes
  description : Bytes
  deriving DecidableEq, Repr

/-- createContractStateFromVM checks the trigger and every size limit and
builds the contract state, narrowing the return type and property flags to
bytes as the Go conversions do. -/
def createContractStateFromVM (tri : Nat) (s : ContractSpec) :
    Except InteropErr ContractState :=
  if tri ≠ TriggerApplication then .error .triggerNotApplication
  else if s.script.length > MaxContractScriptSize then .error .scriptTooBig
  else if s.paramList.length > MaxContractParametersNum then .error .tooManyParameters
  else if s.name.length > MaxContractStringLen then .error .nameTooBig
  else if s.codeVersion.length > MaxContractStringLen then .error .versionTooBig
  else if s.author.length > MaxContractStringLen then .error .authorTooBig
  else if s.email.length > MaxContractStringLen then .error .emailTooBig
  else if s.description.length > MaxContractDescriptionLen then .error .descriptionTooBig
  else .ok
    { script := s.script
    , paramList := s.paramList
    , returnType := (s.returnType % 256).toNat
    , properties := (s.properties % 256).toNat
    , name := s.name
    , codeVersion := s.codeVersion
    , author := s.author
    , email := s.email
    , description := s.description }

/-- The DAO view the contract-lifecycle handlers read and write: contract
states keyed by script hash and storage items keyed by (hash, key). -/
structure ContractDao where
  contracts : Uint160 → Option ContractState
  items : Uint160 × Bytes → Option StorageItem

/-- contractCreate: compute the script hash (hashFn stands for
hash.Hash160 of the script); when a contract with that hash exists return
it unchanged, otherwise persist and return the new state. -/
def contractCreate (hashFn : Bytes → Uint160) (tri : Nat) (dao : ContractDao)
    (s : ContractSpec) : Except InteropErr (ContractDao × ContractState) :=
  match createContractStateFromVM tri s with
  | .error e => .error e
  | .ok newcontract =>
    match dao.contracts (hashFn newcontract.script) with
    | some contract => .ok (dao, contract)
    | none =>
      .ok ({ dao with contracts := fun h =>
               if h = hashFn newcontract.script then some newcontract
               else dao.contracts h },
           newcontract)

/-- The storage-migration loop of contractMigrate: every item of the source
namespace is written into the destination namespace with the constant flag
cleared; destination keys with no source item are left alone. -/
def copyStorageItems (items : Uint160 × Bytes → Option StorageItem)
    (src dst : Uint160) : Uint160 × Bytes → Option StorageItem :=
  fun p =>
    if p.1 = dst then
      match items (src, p.2) with
      | some si => some { value := si.value, isConst := false }
      | none => items p
    else items p

/-- contractDestroy removes the contract whose hash is the executing script
hash, a no-op when no such contract exists; its storage items are removed
when it declared storage support. Requires the Application trigger. -/
def contractDestroy (tri : Nat) (dao : ContractDao) (callerHash : Uint160) :
    Except InteropErr ContractDao :=
  if tri ≠ TriggerApplication then .error .triggerNotApplication
  else
    match dao.contracts callerHash with
    | none => .ok dao
    | some cs =>
      let dao1 : ContractDao :=
        { dao with contracts := fun h =>
            if h = callerHash then none else dao.contracts h }
      if cs.hasStorage then
        .ok { dao1 with items := fun p =>
                if p.1 = callerHash then none else dao1.items p }
      else .ok dao1

/-- contractMigrate behaves as contractCreate and, only on first creation
of a storage-enabled contract, copies the calling contract's storage items
into the new namespace with the constant flag cleared; it then destroys the
calling contract. -/
def contractMigrate (hashFn : Bytes → Uint160) (tri : Nat) (dao : ContractDao)
    (callerHash : Uint160) (s : ContractSpec) :
    Except InteropErr (ContractDao × ContractState) :=
  match createContractStateFromVM tri s with
  | .error e => .error e
  | .ok newcontract =>
    let h := hashFn newcontract.script
    let staged : ContractDao × ContractState :=
      match dao.contracts h with
      | some contract => (dao, contract)
      | none =>
        let d1 : ContractDao :=
          { dao with contracts := fun x =>
              if x = h then some newcontract else dao.contracts x }
        let d2 : ContractDao :=
          if newcontract.hasStorage then
            { d1 with items := copyStorageItems d1.items callerHash h }
          else d1
        (d2, newcontract)
    match contractDestroy tri staged.1 callerHash with
    | .error e => .error e
    | .ok dao2 => .ok (dao2, staged.2)

/-! ## Asset lifecycle handlers -/

/-- MaxAssetNameLen is the maximum length of an asset name. -/
def MaxAssetNameLen : Nat := 1024

/-- MaxAssetPrecision is the maximum precision of an asset. -/
def MaxAssetPrecision : Nat := 8

/-- BlocksPerYear is the multiplier for asset renewal. -/
def BlocksPerYear : Nat := 2000000

/-- DefaultAssetLifetime is the default lifetime of an asset. -/
def DefaultAssetLifetime : Nat := 1 + BlocksPerYear

/-- Largest 32-bit unsigned value, the clamp bound of assetRenew. -/
def MaxUint32 : Nat := 4294967295

/-- Modelled from the spec: the numeric codes of the closed set of asset
kinds (transaction.AssetType, defined outside the given sources). Only
membership in the closed set and the distinctness of the codes matter. -/
def AssetCurrency : Nat := 0x08

/-- Modelled from the spec: the Share asset kind code. -/
def AssetShare : Nat := 0x90

/-- Modelled from the spec: the Invoice asset kind code. -/
def AssetInvoice : Nat := 0x98

/-- Modelled from the spec: the Token asset kind code. -/
def AssetToken : Nat := 0x60

/-- Asset state fields used by the lifecycle handlers. Amounts are the
int64 values of util.Fixed8; -1 (minus one base unit, -util.Satoshi) is the
unbounded sentinel. -/
structure AssetState where
  id : Uint256
  assetType : Nat
  name : Bytes
  amount : Int
  precision : Nat
  expiration : Nat
  deriving DecidableEq, Repr

/-- The validation chain of assetCreate, from the trigger check through the
fractional-component check, with the byte narrowing the Go conversions
apply to the asset type and precision arguments; success carries the
validated (type, name, amount, precision) on to the owner-key stage. -/
def assetCreateChecks (tri : Nat) (atypeRaw : Int) (name : Bytes)
    (amount : Int) (precisionRaw : Int) :
    Except InteropErr (Nat × Bytes × Int × Nat) :=
  if tri ≠ TriggerApplication then .error .triggerNotApplication
  else if ¬ ((atypeRaw % 256).toNat = AssetCurrency ∨
      (atypeRaw % 256).toNat = AssetShare ∨
      (atypeRaw % 256).toNat = AssetInvoice ∨
      (atypeRaw % 256).toNat = AssetToken) then .error .wrongAssetType
  else if name.length > MaxAssetNameLen then .error .assetNameTooBig
  else if amount = 0 then .error .amountZero
  else if amount < -1 then .error .amountNegative
  else if (atypeRaw % 256).toNat = AssetInvoice ∧ amount ≠ -1 then
    .error .invoiceAmount
  else if (precisionRaw % 256).toNat > MaxAssetPrecision then
    .error .precisionTooBig
  else if (atypeRaw % 256).toNat = AssetShare ∧ (precisionRaw % 256).toNat ≠ 0 then
    .error .sharePrecision
  else if amount ≠ -1 ∧
      amount % (10 : Int) ^ (MaxAssetPrecision - (precisionRaw % 256).toNat) ≠ 0 then
    .error .fractionalAmount
  else .ok ((atypeRaw % 256).toNat, name, amount, (precisionRaw % 256).toNat)

/-- The parts of the context assetRenew consults: the trigger, the current
block height and the asset states kept by the DAO. -/
structure AssetChain where
  trigger : Nat
  blockHeight : Nat
  assets : Uint256 → Option AssetState

/-- assetRenew re-reads the asset by id, raises a lapsed expiration to
height + 1, adds the byte-narrowed years argument times BlocksPerYear,
clamps at the 32-bit maximum, persists and returns the new expiration. -/
def assetRenew (c : AssetChain) (handle : AssetState) (years : Int) :
    Except InteropErr ((Uint256 → Option AssetState) × Nat) :=
  if c.trigger ≠ TriggerApplication then .error .triggerNotApplication
  else
    let y : Nat := (years % 256).toNat
    match c.assets handle.id with
    | none => .error .assetNotFound
    | some asset =>
      let exp1 :=
        if asset.expiration < c.blockHeight + 1 then c.blockHeight + 1
        else asset.expiration
      let expiration0 := exp1 + y * BlocksPerYear
      let expiration := if expiration0 > MaxUint32 then MaxUint32 else expiration0
      let asset2 := { asset with expiration := expiration }
      .ok (fun i => if i = asset2.id then some asset2 else c.assets i, expiration)

/-! ## Shared concrete fixtures for witnesses and counterexamples -/

/-- A contract state with storage support, used as a fixture. -/
def fixContract : ContractState :=
  { script := [], paramList := [], returnType := 0, properties := 1
  , name := [], codeVersion := [], author := [], email := [], description := [] }

/-- A writable storage context owned by contract hash [1]. -/
def fixCtx : StorageContext := { scriptHash := [1], readOnly := false }

/-- An interop context under the Application trigger whose ledger knows the
storage-enabled contract [1], has one committed item [7] under key [2] of
that contract, and an empty staged overlay. -/
def fixIc : InteropContext :=
  { trigger := 0x10
  , contracts := fun h => if h = [1] then some fixContract else none
  , committed := fun p => if p = ([1], [2]) then
      some { value := [7], isConst := false } else none
  , mem := fun _ => none }

/-! ## C2 -/

/-- C2: for every writable storage context, key and value, when
put(ctx, key, value, false) succeeds (which requires a write-eligible
trigger and a key of at most 1024 bytes), an immediately following
get(ctx, key) against the updated overlay returns exactly that value, even
though nothing has been committed: the staged overlay is consulted before
committed storage. -/
theorem put_then_get_returns_value (ic : InteropContext) (stc : StorageContext)
    (key value : Bytes) (mem' : MemStore)
    (hput : putWithContextAndFlags ic stc key value false = Except.ok mem') :
    storageGet { ic with mem := mem' } stc key = Except.ok value := by
  unfold putWithContextAndFlags at hput
  split at hput
  · exact Except.noConfusion hput
  split at hput
  · exact Except.noConfusion hput
  split at hput
  · exact Except.noConfusion hput
  split at hput
  · exact Except.noConfusion hput
  rename_i u heq
  split at hput
  · exact Except.noConfusion hput
  have hm : mem' = putStorageItemIntoStore ic.mem stc.scriptHash key
      { value := value, isConst := false } := (Except.ok.inj hput).symm
  subst hm
  have h2 : checkStorageContext
      { ic with mem := (putStorageItemIntoStore ic.mem stc.scriptHash key
          { value := value, isConst := false }) } stc = Except.ok u := heq
  unfold storageGet
  rw [h2]
  simp [storageLookup, getStorageItemFromStore, putStorageItemIntoStore]

/-- Witness for C2: in the concrete fixture, putting value [3] under key
[2] and reading it back through the staged overlay yields [3]. -/
theorem put_then_get_returns_value_witness :
    storageGet
      { fixIc with mem := (putStorageItemIntoStore fixIc.mem [1] [2]
          { value := [3], isConst := false }) } fixCtx [2] = Except.ok [3] :=
  put_then_get_returns_value fixIc fixCtx [2] [3]
    (putStorageItemIntoStore fixIc.mem [1] [2] { value := [3], isConst := false })
    rfl

/-! ## C3 -/

/-- After a staged tombstone, a get falls through to committed storage:
helper describing storageGet on a context whose overlay holds a tombstone
for the queried key. -/
theorem storageGet_after_tombstone (ic : InteropContext) (stc : StorageContext)
    (key : Bytes) (u : Unit) (heq : checkStorageContext ic stc = Except.ok u) :
    storageGet { ic with mem := deleteStorageItemInStore ic.mem stc.scriptHash key }
        stc key =
      Except.ok (((ic.committed (stc.scriptHash, key)).map StorageItem.value).getD []) := by
  have h2 : checkStorageContext
      { ic with mem := (deleteStorageItemInStore ic.mem stc.scriptHash key) } stc =
      Except.ok u := heq
  unfold storageGet
  rw [h2]
  unfold storageLookup getStorageItemFromStore deleteStorageItemInStore
  simp only [if_pos rfl]
  cases h : ic.committed (stc.scriptHash, key) <;> simp

/-- C3 (amended): if delete(ctx, k) succeeds, a following get(ctx, k) in
the same execution returns the value still present in committed storage for
that key when one exists, and an empty byte sequence only when committed
storage also misses: the staged tombstone makes the overlay lookup miss and
get falls through to committed storage. -/
theorem delete_then_get_falls_through (ic : InteropContext)
    (stc : StorageContext) (key : Bytes) (mem' : MemStore)
    (hdel : storageDelete ic stc key = Except.ok mem') :
    storageGet { ic with mem := mem' } stc key =
      Except.ok (((ic.committed (stc.scriptHash, key)).map StorageItem.value).getD []) := by
  unfold storageDelete at hdel
  split at hdel
  · exact Except.noConfusion hdel
  split at hdel
  · exact Except.noConfusion hdel
  split at hdel
  · exact Except.noConfusion hdel
  rename_i u heq
  split at hdel
  · split at hdel
    · exact Except.noConfusion hdel
    · have hm : mem' = deleteStorageItemInStore ic.mem stc.scriptHash key :=
        (Except.ok.inj hdel).symm
      subst hm
      exact storageGet_after_tombstone ic stc key u heq
  · have hm : mem' = deleteStorageItemInStore ic.mem stc.scriptHash key :=
      (Except.ok.inj hdel).symm
    subst hm
    exact storageGet_after_tombstone ic stc key u heq

/-- The overlay produced by deleting key [2] of contract [1] in the
fixture. -/
def fixTombMem : MemStore := deleteStorageItemInStore fixIc.mem [1] [2]

/-- Counterexample to C3 as stated: in the fixture the committed store
holds [7] under key [2]; delete succeeds, but the following get returns the
stale committed value [7], not an empty byte sequence. -/
theorem delete_then_get_stale_counterexample :
    storageDelete fixIc fixCtx [2] = Except.ok fixTombMem ∧
    storageGet { fixIc with mem := fixTombMem } fixCtx [2] = Except.ok [7] ∧
    ([7] : Bytes) ≠ ([] : Bytes) :=
  ⟨rfl, rfl, by decide⟩

/-- Witness for the amended C3 on the fixture: after the staged tombstone,
get returns the committed value. -/
theorem delete_then_get_falls_through_witness :
    storageGet { fixIc with mem := fixTombMem } fixCtx [2] =
      Except.ok (((fixIc.committed ([1], [2])).map StorageItem.value).getD []) :=
  delete_then_get_falls_through fixIc fixCtx [2] fixTombMem rfl

/-! ## C4 -/

/-- A read-only storage context owned by contract hash [1]. -/
def fixCtxRO : StorageContext := { scriptHash := [1], readOnly := true }

/-- An interop context whose committed store has a constant item [9] under
key [4] of the storage-enabled contract [1]. -/
def fixIcConst : InteropContext :=
  { trigger := 0x10
  , contracts := fun h => if h = [1] then some fixContract else none
  , committed := fun p => if p = ([1], [4]) then
      some { value := [9], isConst := true } else none
  , mem := fun _ => none }

/-- C4 (amended): for every storage context and key whose existing item
(staged overlay first, else committed storage) has is_const = true, put and
delete never succeed, regardless of the new value; and once the trigger,
key-length and read-only checks pass and the context is valid, the failure
is precisely the ConstViolation error. -/
theorem const_item_never_overwritten (ic : InteropContext)
    (stc : StorageContext) (key value : Bytes) (isC : Bool) (si : StorageItem)
    (hsi : storageLookup ic stc.scriptHash key = some si)
    (hconst : si.isConst = true) :
    (∀ m : MemStore, putWithContextAndFlags ic stc key value isC ≠ Except.ok m) ∧
    (∀ m : MemStore, storageDelete ic stc key ≠ Except.ok m) ∧
    ((ic.trigger = TriggerApplication ∨ ic.trigger = TriggerApplicationR) →
      stc.readOnly = false → key.length ≤ MaxStorageKeyLen →
      ∀ u : Unit, checkStorageContext ic stc = Except.ok u →
      putWithContextAndFlags ic stc key value isC =
          Except.error InteropErr.constViolation ∧
      storageDelete ic stc key = Except.error InteropErr.constViolation) := by
  refine ⟨?_, ?_, ?_⟩
  · intro m hok
    unfold putWithContextAndFlags at hok
    split at hok
    · exact Except.noConfusion hok
    split at hok
    · exact Except.noConfusion hok
    split at hok
    · exact Except.noConfusion hok
    split at hok
    · exact Except.noConfusion hok
    rw [hsi] at hok
    simp [hconst] at hok
  · intro m hok
    unfold storageDelete at hok
    split at hok
    · exact Except.noConfusion hok
    split at hok
    · exact Except.noConfusion hok
    split at hok
    · exact Except.noConfusion hok
    rw [hsi] at hok
    simp [hconst] at hok
  · intro htr hro hkey u hcs
    have hk2 : ¬ key.length > MaxStorageKeyLen := not_lt.mpr hkey
    have htr2 : ¬ (ic.trigger ≠ TriggerApplication ∧ ic.trigger ≠ TriggerApplicationR) := by
      rcases htr with h | h <;> simp [h]
    constructor
    · unfold putWithContextAndFlags
      rw [if_neg htr2, if_neg hk2, if_neg (by simp [hro]), hcs, hsi]
      simp [hconst]
    · unfold storageDelete
      rw [if_neg htr2, if_neg (by simp [hro]), hcs, hsi]
      simp [hconst]

/-- Witness for C4: in the constant-item fixture, with the Application
trigger and a writable context, put and delete both fail with
ConstViolation. -/
theorem const_item_never_overwritten_witness :
    putWithContextAndFlags fixIcConst fixCtx [4] [5] false =
        Except.error InteropErr.constViolation ∧
    storageDelete fixIcConst fixCtx [4] = Except.error InteropErr.constViolation :=
  (const_item_never_overwritten fixIcConst fixCtx [4] [5] false
      { value := [9], isConst := true } rfl rfl).2.2 (Or.inl rfl) rfl
    (by decide) () rfl

/-- Counterexample to C4 as stated: through a read-only context the failure
on the constant item is the ReadOnlyContext error, not ConstViolation (the
read-only check precedes the constness check), so "put fails with a
ConstViolation error" does not hold for every storage context. -/
theorem const_item_errorkind_counterexample :
    storageLookup fixIcConst [1] [4] = some { value := [9], isConst := true } ∧
    putWithContextAndFlags fixIcConst fixCtxRO [4] [5] false =
        Except.error InteropErr.readOnlyContext ∧
    InteropErr.readOnlyContext ≠ InteropErr.constViolation :=
  ⟨rfl, rfl, by decide⟩

/-! ## C9 -/

/-- The fixture context under the Verification trigger (0x00). -/
def fixIcVerif : InteropContext :=
  { trigger := 0x00
  , contracts := fun h => if h = [1] then some fixContract else none
  , committed := fun p => if p = ([1], [2]) then
      some { value := [7], isConst := false } else none
  , mem := fun _ => none }

/-- C9 (amended): put and delete through a read-only context never
succeed; once the trigger check (and for put the key-length check) passes,
the failure is precisely the ReadOnlyContext error; and as_read_only is
idempotent: on an already read-only context it returns the context
unchanged, otherwise a context with the same owner and the read-only flag
set, so applying it twice equals applying it once. -/
theorem readonly_context_rejects_writes (ic : InteropContext)
    (stc : StorageContext) (key value : Bytes) (isC : Bool)
    (hro : stc.readOnly = true) :
    (∀ m : MemStore, putWithContextAndFlags ic stc key value isC ≠ Except.ok m) ∧
    (∀ m : MemStore, storageDelete ic stc key ≠ Except.ok m) ∧
    ((ic.trigger = TriggerApplication ∨ ic.trigger = TriggerApplicationR) →
      key.length ≤ MaxStorageKeyLen →
      putWithContextAndFlags ic stc key value isC =
          Except.error InteropErr.readOnlyContext) ∧
    ((ic.trigger = TriggerApplication ∨ ic.trigger = TriggerApplicationR) →
      storageDelete ic stc key = Except.error InteropErr.readOnlyContext) ∧
    (∀ c : StorageContext,
      storageContextAsReadOnly (storageContextAsReadOnly c) =
        storageContextAsReadOnly c) ∧
    (storageContextAsReadOnly stc = stc) ∧
    (∀ c : StorageContext, c.readOnly = false →
      storageContextAsReadOnly c =
        { scriptHash := c.scriptHash, readOnly := true }) := by
  refine ⟨?_, ?_, ?_, ?_, ?_, ?_, ?_⟩
  · intro m hok
    unfold putWithContextAndFlags at hok
    split at hok
    · exact Except.noConfusion hok
    split at hok
    · exact Except.noConfusion hok
    exact Except.noConfusion hok
  · intro m hok
    unfold storageDelete at hok
    split at hok
    · exact Except.noConfusion hok
    exact Except.noConfusion hok
  · intro htr hkey
    have hk2 : ¬ key.length > MaxStorageKeyLen := not_lt.mpr hkey
    have htr2 : ¬ (ic.trigger ≠ TriggerApplication ∧ ic.trigger ≠ TriggerApplicationR) := by
      rcases htr with h | h <;> simp [h]
    unfold putWithContextAndFlags
    rw [if_neg htr2, if_neg hk2, if_pos hro]
  · intro htr
    have htr2 : ¬ (ic.trigger ≠ TriggerApplication ∧ ic.trigger ≠ TriggerApplicationR) := by
      rcases htr with h | h <;> simp [h]
    unfold storageDelete
    rw [if_neg htr2, if_pos hro]
  · intro c
    unfold storageContextAsReadOnly
    by_cases h : c.readOnly <;> simp [h]
  · unfold storageContextAsReadOnly
    rw [if_pos hro]
  · intro c h
    unfold storageContextAsReadOnly
    rw [if_neg (by simp [h])]

/-- Witness for C9: through the read-only fixture context under the
Application trigger, put and delete fail with ReadOnlyContext, and
as_read_only of the writable fixture context twice equals once. -/
theorem readonly_context_rejects_writes_witness :
    putWithContextAndFlags fixIc fixCtxRO [2] [5] false =
        Except.error InteropErr.readOnlyContext ∧
    storageDelete fixIc fixCtxRO [2] = Except.error InteropErr.readOnlyContext ∧
    storageContextAsReadOnly (storageContextAsReadOnly fixCtx) =
      storageContextAsReadOnly fixCtx :=
  ⟨(readonly_context_rejects_writes fixIc fixCtxRO [2] [5] false rfl).2.2.1
      (Or.inl rfl) (by decide),
   (readonly_context_rejects_writes fixIc fixCtxRO [2] [5] false rfl).2.2.2.1
      (Or.inl rfl),
   (readonly_context_rejects_writes fixIc fixCtxRO [2] [5] false rfl).2.2.2.2.1
      fixCtx⟩

/-- Counterexample to C9 as stated: under the Verification trigger the
failure through a read-only context is the TriggerNotApplication error, not
ReadOnlyContext (the trigger check precedes the read-only check). -/
theorem readonly_errorkind_counterexample :
    fixCtxRO.readOnly = true ∧
    putWithContextAndFlags fixIcVerif fixCtxRO [2] [5] false =
        Except.error InteropErr.triggerNotApplication ∧
    InteropErr.triggerNotApplication ≠ InteropErr.readOnlyContext :=
  ⟨rfl, rfl, by decide⟩

/-! ## C1 -/

/-- An empty ledger: no blocks, headers, transactions or contracts. -/
def emptyChain : Blockchainer :=
  { headerHash := fun _ => List.replicate 32 0
  , blocks := fun _ => none
  , headers := fun _ => none
  , transactions := fun _ => none
  , contractStates := fun _ => none }

/-- C1 (amended): when the looked-up entity is absent from the ledger, the
block, header and contract lookup handlers succeed and push an empty byte
string; the transaction-by-hash handler however surfaces absence as an
error (an execution fault) because it propagates the ledger's miss. -/
theorem absence_soft_miss_except_transaction (bc : Blockchainer)
    (e1 e2 e3 e4 : Bytes) (h1 h2 : Uint256) (h3 : Uint160) (h4 : Uint256) :
    (getBlockHashFromElement bc e1 = Except.ok h1 → bc.blocks h1 = none →
      bcGetBlock bc e1 = Except.ok (StackItem.bytes [])) ∧
    (getBlockHashFromElement bc e2 = Except.ok h2 → bc.headers h2 = none →
      bcGetHeader bc e2 = Except.ok (StackItem.bytes [])) ∧
    (uint160DecodeBytes e3 = Except.ok h3 → bc.contractStates h3 = none →
      bcGetContract bc e3 = Except.ok (StackItem.bytes [])) ∧
    (uint256DecodeReverseBytes e4 = Except.ok h4 → bc.transactions h4 = none →
      bcGetTransaction bc e4 = Except.error InteropErr.txNotFound) := by
  refine ⟨?_, ?_, ?_, ?_⟩
  · intro ha hb
    unfold bcGetBlock
    rw [ha]
    simp [hb]
  · intro ha hb
    unfold bcGetHeader
    rw [ha]
    simp [hb]
  · intro ha hb
    unfold bcGetContract
    rw [ha]
    simp [hb]
  · intro ha hb
    unfold bcGetTransaction getTransactionAndHeight
    rw [ha]
    simp [hb]

/-- Counterexample to C1 as stated: on the empty ledger, the
transaction-by-hash handler does not succeed with an empty push for an
absent transaction; it returns an error, surfacing absence as an execution
fault. -/
theorem transaction_miss_faults_counterexample :
    bcGetTransaction emptyChain (List.replicate 32 0) =
        Except.error InteropErr.txNotFound ∧
    bcGetTransaction emptyChain (List.replicate 32 0) ≠
        Except.ok (StackItem.bytes []) := by
  refine ⟨rfl, fun h => ?_⟩
  rw [show bcGetTransaction emptyChain (List.replicate 32 0) =
      Except.error InteropErr.txNotFound from rfl] at h
  exact Except.noConfusion h

/-- Witness for the amended C1 on the empty ledger: block, header and
contract misses push an empty byte string, the transaction miss errors. -/
theorem absence_soft_miss_except_transaction_witness :
    bcGetBlock emptyChain [0] = Except.ok (StackItem.bytes []) ∧
    bcGetHeader emptyChain [0] = Except.ok (StackItem.bytes []) ∧
    bcGetContract emptyChain (List.replicate 20 0) = Except.ok (StackItem.bytes []) ∧
    bcGetTransaction emptyChain (List.replicate 32 0) =
      Except.error InteropErr.txNotFound :=
  ⟨(absence_soft_miss_except_transaction emptyChain [0] [0]
      (List.replicate 20 0) (List.replicate 32 0) (List.replicate 32 0)
      (List.replicate 32 0) (List.replicate 20 0) (List.replicate 32 0)).1 rfl rfl,
   (absence_soft_miss_except_transaction emptyChain [0] [0]
      (List.replicate 20 0) (List.replicate 32 0) (List.replicate 32 0)
      (List.replicate 32 0) (List.replicate 20 0) (List.replicate 32 0)).2.1 rfl rfl,
   (absence_soft_miss_except_transaction emptyChain [0] [0]
      (List.replicate 20 0) (List.replicate 32 0) (List.replicate 32 0)
      (List.replicate 32 0) (List.replicate 20 0) (List.replicate 32 0)).2.2.1 rfl rfl,
   (absence_soft_miss_except_transaction emptyChain [0] [0]
      (List.replicate 20 0) (List.replicate 32 0) (List.replicate 32 0)
      (List.replicate 32 0) (List.replicate 20 0) (List.replicate 32 0)).2.2.2 rfl rfl⟩

/-! ## C7 -/

/-- C7: contract create is idempotent on script hash. For a valid spec:
when a contract with the spec's script hash exists, create returns the
existing state without touching the DAO and without error; when none
exists, the new state is persisted (and nothing else changes, in
particular no storage item); and running create twice with the same spec
yields the same DAO and the same contract state both times. -/
theorem contract_create_idempotent (hashFn : Bytes → Uint160) (tri : Nat)
    (dao : ContractDao) (s : ContractSpec) (c : ContractState)
    (hvalid : createContractStateFromVM tri s = Except.ok c) :
    (∀ ex : ContractState, dao.contracts (hashFn c.script) = some ex →
      contractCreate hashFn tri dao s = Except.ok (dao, ex)) ∧
    (dao.contracts (hashFn c.script) = none →
      ∀ dao1 c1, contractCreate hashFn tri dao s = Except.ok (dao1, c1) →
        c1 = c ∧ dao1.contracts (hashFn c.script) = some c ∧
        (∀ h : Uint160, h ≠ hashFn c.script → dao1.contracts h = dao.contracts h) ∧
        dao1.items = dao.items) ∧
    (∀ dao1 c1, contractCreate hashFn tri dao s = Except.ok (dao1, c1) →
      contractCreate hashFn tri dao1 s = Except.ok (dao1, c1)) := by
  refine ⟨?_, ?_, ?_⟩
  · intro ex hex
    unfold contractCreate
    rw [hvalid]
    simp [hex]
  · intro hnone dao1 c1 hcr
    unfold contractCreate at hcr
    rw [hvalid] at hcr
    simp only [hnone] at hcr
    have hpair := Except.ok.inj hcr
    have hdao1 : dao1 = { dao with contracts := fun h =>
        if h = (hashFn c.script) then some c else dao.contracts h } :=
      (congrArg Prod.fst hpair).symm
    have hc1 : c1 = c := (congrArg Prod.snd hpair).symm
    subst hdao1
    refine ⟨hc1, by simp, ?_, rfl⟩
    intro h hh
    simp [hh]
  · intro dao1 c1 hcr
    unfold contractCreate at hcr ⊢
    rw [hvalid] at hcr ⊢
    cases hd : dao.contracts (hashFn c.script) with
    | some ex =>
      simp only [hd] at hcr
      have hpair := Except.ok.inj hcr
      have hdao1 : dao1 = dao := (congrArg Prod.fst hpair).symm
      have hc1 : c1 = ex := (congrArg Prod.snd hpair).symm
      subst hdao1
      subst hc1
      simp [hd]
    | none =>
      simp only [hd] at hcr
      have hpair := Except.ok.inj hcr
      have hdao1 : dao1 = { dao with contracts := fun h =>
          if h = (hashFn c.script) then some c else dao.contracts h } :=
        (congrArg Prod.fst hpair).symm
      have hc1 : c1 = c := (congrArg Prod.snd hpair).symm
      subst hdao1
      subst hc1
      simp

/-- The identity hash function used by concrete contract fixtures (the
script hash function is a parameter of the embedded handlers). -/
def idHash : Bytes → Uint160 := fun bs => bs

/-- A storage-enabled contract spec with script [9]. -/
def fixSpec : ContractSpec :=
  { script := [9], paramList := [], returnType := 0, properties := 1
  , name := [], codeVersion := [], author := [], email := [], description := [] }

/-- The contract state createContractStateFromVM builds from fixSpec. -/
def fixNewContract : ContractState :=
  { script := [9], paramList := [], returnType := 0, properties := 1
  , name := [], codeVersion := [], author := [], email := [], description := [] }

/-- A DAO with no contracts and no storage items. -/
def emptyDao : ContractDao := { contracts := fun _ => none, items := fun _ => none }

/-- The DAO after creating fixSpec in the empty DAO. -/
def daoAfterCreate : ContractDao :=
  { contracts := fun h => if h = [9] then some fixNewContract else none
  , items := fun _ => none }

/-- Witness for C7: creating fixSpec a second time (after a first create
persisted it into the empty DAO) returns the same DAO and contract state. -/
theorem contract_create_idempotent_witness :
    contractCreate idHash 0x10 daoAfterCreate fixSpec =
      Except.ok (daoAfterCreate, fixNewContract) :=
  (contract_create_idempotent idHash 0x10 emptyDao fixSpec fixNewContract
      rfl).2.2 daoAfterCreate fixNewContract rfl

/-! ## C8 -/

/-- contractDestroy on an existing storage-enabled contract removes its
record and every storage item of its namespace. -/
theorem contractDestroy_removes (tri : Nat) (dao : ContractDao)
    (callerHash : Uint160) (cs : ContractState)
    (htri : tri = TriggerApplication)
    (hc : dao.contracts callerHash = some cs) (hst : cs.hasStorage = true) :
    contractDestroy tri dao callerHash =
      Except.ok
        { contracts := fun h => if h = callerHash then none else dao.contracts h
        , items := fun p => if p.1 = callerHash then none else dao.items p } := by
  subst htri
  unfold contractDestroy
  rw [if_neg (by simp), hc]
  simp [hst]

/-- C8: for a valid spec, when the migration target's hash differs from
the caller's and the caller is a storage-enabled contract, migrate behaves
as create and destroys the caller: afterwards the caller's record and all
its storage items are gone; only on first creation of a storage-declaring
contract are the caller's items copied into the new namespace with
is_const forced to false; when the target already existed, migrate returns
the existing state, copies nothing, and still destroys the caller. -/
theorem contract_migrate_spec (hashFn : Bytes → Uint160) (tri : Nat)
    (dao : ContractDao) (callerHash : Uint160) (s : ContractSpec)
    (nc callerCs : ContractState)
    (hvalid : createContractStateFromVM tri s = Except.ok nc)
    (hne : hashFn nc.script ≠ callerHash)
    (hcaller : dao.contracts callerHash = some callerCs)
    (hcst : callerCs.hasStorage = true) :
    ∀ dao2 c2, contractMigrate hashFn tri dao callerHash s = Except.ok (dao2, c2) →
      dao2.contracts callerHash = none ∧
      (∀ k : Bytes, dao2.items (callerHash, k) = none) ∧
      (dao.contracts (hashFn nc.script) = none → nc.hasStorage = true →
        c2 = nc ∧
        dao2.contracts (hashFn nc.script) = some nc ∧
        (∀ (k : Bytes) (si : StorageItem), dao.items (callerHash, k) = some si →
          dao2.items (hashFn nc.script, k) =
            some { value := si.value, isConst := false })) ∧
      (∀ ex : ContractState, dao.contracts (hashFn nc.script) = some ex →
        c2 = ex ∧
        (∀ p : Uint160 × Bytes, p.1 ≠ callerHash → dao2.items p = dao.items p)) := by
  have htri : tri = TriggerApplication := by
    by_contra hq
    unfold createContractStateFromVM at hvalid
    rw [if_pos hq] at hvalid
    exact Except.noConfusion hvalid
  intro dao2 c2 hmig
  unfold contractMigrate at hmig
  rw [hvalid] at hmig
  cases hex : dao.contracts (hashFn nc.script) with
  | some ex =>
    simp only [hex] at hmig
    rw [contractDestroy_removes tri dao callerHash callerCs htri hcaller hcst] at hmig
    have hpair := Except.ok.inj hmig
    have hdao2 := (congrArg Prod.fst hpair).symm
    have hc2 : c2 = ex := (congrArg Prod.snd hpair).symm
    subst hdao2
    refine ⟨by simp, fun k => by simp, fun hn _ => Option.noConfusion hn, ?_⟩
    intro ex2 hex2
    refine ⟨hc2.trans (Option.some.inj hex2), ?_⟩
    intro p hp
    simp [hp]
  | none =>
    simp only [hex] at hmig
    by_cases hst : nc.hasStorage
    · rw [if_pos hst] at hmig
      have hcmid : (ContractDao.mk
            (fun x => if x = (hashFn nc.script) then some nc else dao.contracts x)
            (copyStorageItems dao.items callerHash (hashFn nc.script))).contracts
            callerHash = some callerCs := by
        show (if callerHash = (hashFn nc.script) then some nc
              else dao.contracts callerHash) = some callerCs
        rw [if_neg (fun hq => hne hq.symm)]
        exact hcaller
      rw [contractDestroy_removes tri _ callerHash callerCs htri hcmid hcst] at hmig
      have hpair := Except.ok.inj hmig
      have hdao2 := (congrArg Prod.fst hpair).symm
      have hc2 : c2 = nc := (congrArg Prod.snd hpair).symm
      subst hdao2
      refine ⟨by simp, fun k => by simp, ?_,
        fun ex2 hex2 => Option.noConfusion hex2⟩
      intro _ _
      refine ⟨hc2, by simp [hne], ?_⟩
      intro k si hsi
      simp [hne, copyStorageItems, hsi]
    · rw [if_neg hst] at hmig
      have hcmid2 : (ContractDao.mk
            (fun x => if x = (hashFn nc.script) then some nc else dao.contracts x)
            dao.items).contracts callerHash = some callerCs := by
        show (if callerHash = (hashFn nc.script) then some nc
              else dao.contracts callerHash) = some callerCs
        rw [if_neg (fun hq => hne hq.symm)]
        exact hcaller
      rw [contractDestroy_removes tri _ callerHash callerCs htri hcmid2 hcst] at hmig
      have hpair := Except.ok.inj hmig
      have hdao2 := (congrArg Prod.fst hpair).symm
      subst hdao2
      refine ⟨by simp, fun k => by simp,
        fun _ hst2 => absurd hst2 (by simpa using hst),
        fun ex2 hex2 => Option.noConfusion hex2⟩

/-- A caller contract with storage support and script [1]. -/
def fixCallerContract : ContractState :=
  { script := [1], paramList := [], returnType := 0, properties := 1
  , name := [], codeVersion := [], author := [], email := [], description := [] }

/-- DAO before migration: caller [1] deployed, with one constant storage
item (value [5]) under key [10] of its namespace. -/
def daoBeforeMigrate : ContractDao :=
  { contracts := fun h => if h = [1] then some fixCallerContract else none
  , items := fun p => if p = ([1], [10]) then
      some { value := [5], isConst := true } else none }

/-- The DAO after migrating the caller [1] to the fresh contract [9]. -/
def daoAfterMigrate : ContractDao :=
  { contracts := fun h => if h = [1] then none
      else if h = [9] then some fixNewContract else daoBeforeMigrate.contracts h
  , items := fun p => if p.1 = [1] then none
      else copyStorageItems daoBeforeMigrate.items [1] [9] p }

/-- Witness for C8: migrating the storage-enabled caller [1] to the fresh
storage-enabled contract [9] removes the caller and its item and copies the
item into [9] with the constant flag cleared. -/
theorem contract_migrate_spec_witness :
    daoAfterMigrate.contracts [1] = none ∧
    daoAfterMigrate.items ([1], [10]) = none ∧
    daoAfterMigrate.contracts [9] = some fixNewContract ∧
    daoAfterMigrate.items ([9], [10]) = some { value := [5], isConst := false } := by
  have t := contract_migrate_spec idHash 0x10 daoBeforeMigrate [1] fixSpec
      fixNewContract fixCallerContract rfl (by decide) rfl rfl daoAfterMigrate
      fixNewContract rfl
  exact ⟨t.1, t.2.1 [10], (t.2.2.1 rfl rfl).2.1,
    (t.2.2.1 rfl rfl).2.2 [10] { value := [5], isConst := true } rfl⟩

/-! ## C10 -/

/-- C10: the renew handler interprets its years argument modulo 256: the
popped integer is narrowed to a byte before the multiplication, so renew
with years n behaves exactly as renew with n mod 256, and renew with 256
behaves as renew with 0 (adding zero years). -/
theorem renew_years_mod_256 (c : AssetChain) (a : AssetState) (n : Int) :
    assetRenew c a n = assetRenew c a (n % 256) ∧
    assetRenew c a 256 = assetRenew c a 0 := by
  constructor
  · unfold assetRenew
    rw [Int.emod_emod_of_dvd n (dvd_refl 256)]
  · unfold assetRenew
    norm_num

/-! ## C5 -/

/-- An asset with id [3] and expiration height 100. -/
def fixAsset : AssetState :=
  { id := [3], assetType := 0x08, name := [], amount := 100
  , precision := 0, expiration := 100 }

/-- An asset chain at height 10 under the Application trigger holding
fixAsset. -/
def fixAssetChain : AssetChain :=
  { trigger := 0x10, blockHeight := 10
  , assets := fun i => if i = [3] then some fixAsset else none }

/-- Counterexample to C5 as stated: renew with years = 256 on an asset
whose expiration (100) is already above height + 1 leaves the expiration at
100 instead of adding 256 * 2,000,000 = 512,000,000 blocks, because the
handler narrows the years argument to a byte. -/
theorem renew_add_years_counterexample :
    (assetRenew fixAssetChain fixAsset 256).map Prod.snd = Except.ok 100 ∧
    (100 : Nat) ≠ 512000100 := ⟨rfl, by decide⟩

/-- C5 (amended): renew raises a lapsed expiration to height + 1, adds
(years mod 256) * 2,000,000 blocks and clamps at the 32-bit maximum; with
(years mod 256) = 0 and expiration already at least height + 1 the
expiration is unchanged, the expiration never decreases, the result never
exceeds the 32-bit maximum, and the updated asset is persisted under its
id. -/
theorem renew_expiration_spec (c : AssetChain) (a asset : AssetState)
    (n : Int) (pr : (Uint256 → Option AssetState) × Nat)
    (hasset : c.assets a.id = some asset)
    (hexp : asset.expiration ≤ MaxUint32)
    (hren : assetRenew c a n = Except.ok pr) :
    pr.2 = min (max asset.expiration (c.blockHeight + 1) +
        (n % 256).toNat * BlocksPerYear) MaxUint32 ∧
    pr.1 asset.id = some { asset with expiration := pr.2 } ∧
    asset.expiration ≤ pr.2 ∧ pr.2 ≤ MaxUint32 ∧
    ((n % 256).toNat = 0 → c.blockHeight + 1 ≤ asset.expiration →
      pr.2 = asset.expiration) := by
  unfold assetRenew at hren
  split at hren
  · exact Except.noConfusion hren
  simp only [hasset] at hren
  have hpr := (Except.ok.inj hren).symm
  subst hpr
  refine ⟨?_, by simp, ?_, ?_, ?_⟩
  · dsimp only
    rw [Nat.min_def, Nat.max_def]
    simp only [BlocksPerYear, MaxUint32] at hexp ⊢
    split_ifs <;> omega
  · dsimp only
    simp only [BlocksPerYear, MaxUint32] at hexp ⊢
    split_ifs <;> omega
  · dsimp only
    simp only [BlocksPerYear, MaxUint32] at hexp ⊢
    split_ifs <;> omega
  · intro hy hge
    dsimp only
    simp only [BlocksPerYear, MaxUint32] at hexp ⊢
    rw [hy]
    split_ifs <;> omega

/-- The renew result for fixAsset with years 0: the store is unchanged and
the returned expiration is the old one. -/
def fixRenewResult : (Uint256 → Option AssetState) × Nat :=
  (fun i => if i = [3] then some fixAsset else fixAssetChain.assets i, 100)

/-- Witness for the amended C5: renewing fixAsset (expiration 100, height
10) with years = 0 returns 100, persists the asset unchanged and stays
within the 32-bit bound. -/
theorem renew_expiration_spec_witness :
    fixRenewResult.2 = fixAsset.expiration ∧
    fixRenewResult.1 fixAsset.id =
      some { fixAsset with expiration := fixRenewResult.2 } ∧
    fixRenewResult.2 ≤ MaxUint32 := by
  have t := renew_expiration_spec fixAssetChain fixAsset fixAsset 0
      fixRenewResult rfl (by decide) rfl
  exact ⟨t.2.2.2.2 rfl (by decide), t.2.1, t.2.2.2.1⟩

/-! ## C6 -/

/-- C6: a successful run of the asset-creation validation chain implies
every claimed amount and precision condition (nonzero amount, no negative
amount other than the -1 sentinel, Invoice only with the sentinel,
precision at most 8, Share only with zero precision, and - unless the
amount is the sentinel - divisibility by 10^(8 - precision)); and
concretely, precision 3 with amount 1500 fails the fractional-component
check while precision 3 with amount 200000 passes the whole chain. -/
theorem asset_amount_validation (tri : Nat) (aty : Int) (name : Bytes)
    (amount : Int) (prec : Int) (r : Nat × Bytes × Int × Nat)
    (hok : assetCreateChecks tri aty name amount prec = Except.ok r) :
    assetCreateChecks TriggerApplication 8 [] 1500 3 =
        Except.error InteropErr.fractionalAmount ∧
    assetCreateChecks TriggerApplication 8 [] 200000 3 =
        Except.ok (AssetCurrency, [], 200000, 3) ∧
    amount ≠ 0 ∧
    (-1 : Int) ≤ amount ∧
    ((aty % 256).toNat = AssetInvoice → amount = -1) ∧
    (prec % 256).toNat ≤ MaxAssetPrecision ∧
    ((aty % 256).toNat = AssetShare → (prec % 256).toNat = 0) ∧
    (amount ≠ -1 →
      amount % (10 : Int) ^ (MaxAssetPrecision - (prec % 256).toNat) = 0) := by
  unfold assetCreateChecks at hok
  split_ifs at hok with h1 h2 h3 h4 h5 h6 h7 h8 h9
  refine ⟨rfl, rfl, h4, not_lt.mp h5, ?_, not_lt.mp h7, ?_, ?_⟩
  · intro hi
    by_contra hne2
    exact h6 ⟨hi, hne2⟩
  · intro hs
    by_contra hne2
    exact h8 ⟨hs, hne2⟩
  · intro ha
    by_contra hm
    exact h9 ⟨ha, hm⟩

/-- Witness for C6: the concrete 200000 run succeeds, the 1500 run fails
the fractional check, and the divisibility fact follows from the theorem. -/
theorem asset_amount_validation_witness :
    assetCreateChecks TriggerApplication 8 [] 1500 3 =
        Except.error InteropErr.fractionalAmount ∧
    assetCreateChecks TriggerApplication 8 [] 200000 3 =
        Except.ok (AssetCurrency, [], 200000, 3) ∧
    (200000 : Int) % (10 : Int) ^ (MaxAssetPrecision - ((3 : Int) % 256).toNat) = 0 := by
  have t := asset_amount_validation TriggerApplication 8 [] 200000 3
      (AssetCurrency, [], 200000, 3) rfl
  exact ⟨t.1, t.2.1, t.2.2.2.2.2.2.2 (by decide)⟩

end NeoInterop
